import Mathlib

/-!
Shallow embedding of the client-side workout session state machine of the
masters-fit frontend (the `WorkoutScreen` component).

The component's React `useState` fields become the fields of `SessionState`;
each handler (`loadWorkout`, `startWorkout`, `togglePause`, `updateProgress`,
`completeExercise`, `skipCurrentExercise`, the rest-timer handlers, the
interval-tick effects and the abandonment effect) becomes a pure function on
`SessionState`.  Remote calls (`getCurrentUser`, `createExerciseLog`,
`markPlanDayAsComplete`, `skipExercise`, `refreshDashboard`) are modelled by
an `Env` of success/failure outcomes; each operation additionally returns the
list of remote calls it issued and the alert it showed, so that failure
semantics and idempotence can be stated.
-/

namespace WorkoutSession

/-- One logged set (from the `SetTracker` component; the spec's glossary:
reps, weight, completion flag). -/
structure ExerciseSet where
  reps : Nat
  weight : Nat
  completed : Bool
deriving DecidableEq

/-- Session-local per-exercise progress record (the `ExerciseProgress`
interface of the component, plus the `isSkipped` field that
`skipCurrentExercise` adds to the record). -/
structure ExerciseProgress where
  setsCompleted : Nat
  repsCompleted : Nat
  roundsCompleted : Nat
  weightUsed : Nat
  sets : List ExerciseSet
  duration : Nat
  restTime : Nat
  notes : String
  isSkipped : Bool
deriving DecidableEq

/-- One exercise instance inside a block (`WorkoutBlockWithExercise`).
Nullable numeric fields of the API payload are `Option Nat`; the component
reads them with `x || 0` (here `Option.getD 0`). -/
structure BlockExercise where
  id : Nat
  sets : Option Nat
  reps : Option Nat
  weight : Option Nat
  duration : Option Nat
  restTime : Option Nat
deriving DecidableEq

/-- A named group of exercises (`WorkoutBlockWithExercises`). -/
structure WorkoutBlock where
  id : Nat
  rounds : Option Nat
  exercises : List BlockExercise
deriving DecidableEq

/-- One day's workout (`PlanDayWithBlocks`).  `date` is the stored timestamp
in minutes since the epoch (see the date-handling section below). -/
structure PlanDay where
  id : Nat
  workoutId : Nat
  date : Int
  isComplete : Bool
  blocks : List WorkoutBlock
deriving DecidableEq

/-- The flattened exercise list of a plan day:
`workout.blocks.flatMap((block) => block.exercises)`. -/
def flattenPlan (p : PlanDay) : List BlockExercise :=
  p.blocks.flatMap (fun b => b.exercises)

/-- The `useState` fields of `WorkoutScreen` that drive the session, plus the
`WorkoutContext` flag `isWorkoutInProgress`. -/
structure SessionState where
  workout : Option PlanDay
  currentExerciseIndex : Nat
  isWorkoutStarted : Bool
  isWorkoutCompleted : Bool
  isPaused : Bool
  workoutTimer : Nat
  exerciseTimer : Nat
  exerciseProgress : List ExerciseProgress
  skippedExercises : List Nat
  isRestTimerActive : Bool
  isRestTimerPaused : Bool
  restTimerCountdown : Int
  showCompleteModal : Bool
  showRestCompleteModal : Bool
  showSkipModal : Bool
  errorMsg : Option String
  workoutInProgress : Bool
deriving DecidableEq

/-- `getFlattenedExercises()`: empty when no workout is loaded. -/
def flattenedExercises (s : SessionState) : List BlockExercise :=
  match s.workout with
  | none => []
  | some w => flattenPlan w

/-- `const currentExercise = exercises[currentExerciseIndex]`. -/
def currentExercise (s : SessionState) : Option BlockExercise :=
  (flattenedExercises s).get? s.currentExerciseIndex

/-- `const currentProgress = exerciseProgress[currentExerciseIndex]`. -/
def currentProgress (s : SessionState) : Option ExerciseProgress :=
  s.exerciseProgress.get? s.currentExerciseIndex

/-- Number of exercises of the loaded plan day. -/
def exerciseCountS (s : SessionState) : Nat :=
  (flattenedExercises s).length

/-- Number of exercises of a plan day. -/
def planExerciseCount (p : PlanDay) : Nat :=
  (flattenPlan p).length

/-- `completedAndSkippedCount / exercises.length * 100` (0 when the list is
empty); the integer arithmetic involved is exact, so `Rat` is faithful to
the JS number computation. -/
def progressPercent (s : SessionState) : Rat :=
  if 0 < exerciseCountS s then
    (((s.currentExerciseIndex : Rat) + (s.skippedExercises.length : Rat)) /
        (exerciseCountS s : Rat)) * 100
  else 0

/-- Outcomes of the remote calls awaited by the handlers: `false` means the
call rejects (network failure) — for `authOk`, that `getCurrentUser()`
returned no user. -/
structure Env where
  authOk : Bool
  logOk : Bool
  completeOk : Bool
  skipOk : Bool
  refreshOk : Bool
deriving DecidableEq

/-- The remote endpoints a handler can hit. -/
inductive RemoteCall where
  | createLog
  | markDayComplete
  | skipExercise
  | refreshDash
deriving DecidableEq

/-- The user-visible alert a handler ends with. -/
inductive AlertMsg where
  /-- no alert shown -/
  | silent
  /-- Alert "No Sets Logged" (validation) -/
  | noSetsLogged
  /-- Alert "Error: Failed to complete exercise. Please try again." -/
  | completeFailed
  /-- Alert "Error: Failed to skip exercise. Please try again." -/
  | skipFailed
  /-- Alert "Workout Complete!" -/
  | workoutComplete
deriving DecidableEq

/-- Result of one handler run: the next state, the remote calls issued (in
order), and the alert shown. -/
structure OpResult where
  state : SessionState
  calls : List RemoteCall
  alert : AlertMsg
deriving DecidableEq

/-- In-range update of the list element at an index, leaving the rest alone
(the behaviour of `updated[i] = f(updated[i])` on an index the component
only uses while a record exists there). -/
def updateAt (n : Nat) (f : α → α) : List α → List α
  | [] => []
  | x :: xs =>
    match n with
    | 0 => f x :: xs
    | m + 1 => x :: updateAt m f xs

/-- Outcome of `fetchActiveWorkout` for a session over a fixed plan: either
the fetch rejects, or it returns the plan containing today's day. -/
inductive LoadOutcome where
  | fetchError
  | found
deriving DecidableEq

/-- Zeroed progress records with target values copied from plan data
(the `initialProgress` map of `loadWorkout`). -/
def initProgress (p : PlanDay) : List ExerciseProgress :=
  (flattenPlan p).map fun ex =>
    { setsCompleted := 0
      repsCompleted := 0
      roundsCompleted := 0
      weightUsed := ex.weight.getD 0
      sets := []
      duration := ex.duration.getD 0
      restTime := ex.restTime.getD 0
      notes := ""
      isSkipped := false }

/-- `loadWorkout`: on fetch failure only the error message changes; on
success with an already-complete day the completed screen is shown without
re-initialising progress; otherwise the day is stored and progress
initialised.  The cursor is never touched. -/
def loadWorkout (p : PlanDay) (o : LoadOutcome) (s : SessionState) : SessionState :=
  match o with
  | .fetchError => { s with errorMsg := some "Failed to load workout. Please try again." }
  | .found =>
    if p.isComplete then
      { s with errorMsg := none, workout := some p,
               isWorkoutCompleted := true, workoutInProgress := false }
    else
      { s with errorMsg := none, workout := some p,
               exerciseProgress := initProgress p }

/-- `startWorkout`. -/
def startWorkout (s : SessionState) : SessionState :=
  { s with isWorkoutStarted := true, workoutTimer := 0, exerciseTimer := 0,
           workoutInProgress := true }

/-- `togglePause`. -/
def togglePause (s : SessionState) : SessionState :=
  { s with isPaused := !s.isPaused }

/-- One second of the workout/exercise interval: both counters increment
exactly when the interval is registered
(`isWorkoutStarted && !isPaused && !isWorkoutCompleted`). -/
def timerTick (s : SessionState) : SessionState :=
  if s.isWorkoutStarted = true ∧ s.isPaused = false ∧ s.isWorkoutCompleted = false then
    { s with workoutTimer := s.workoutTimer + 1, exerciseTimer := s.exerciseTimer + 1 }
  else s

/-- `startRestTimer`: arms the countdown with the current exercise's target
rest time when it is positive. -/
def startRestTimer (s : SessionState) : SessionState :=
  let restTime := ((currentExercise s).bind (fun ex => ex.restTime)).getD 0
  if 0 < restTime then
    { s with restTimerCountdown := (restTime : Int),
             isRestTimerActive := true, isRestTimerPaused := false }
  else s

/-- `toggleRestTimerPause`. -/
def toggleRestTimerPause (s : SessionState) : SessionState :=
  { s with isRestTimerPaused := !s.isRestTimerPaused }

/-- `resetRestTimer`. -/
def resetRestTimer (s : SessionState) : SessionState :=
  let restTime := ((currentExercise s).bind (fun ex => ex.restTime)).getD 0
  { s with restTimerCountdown := (restTime : Int), isRestTimerPaused := false }

/-- `cancelRestTimer`. -/
def cancelRestTimer (s : SessionState) : SessionState :=
  { s with isRestTimerActive := false, isRestTimerPaused := false,
           restTimerCountdown := 0 }

/-- One second of the rest-timer interval: runs exactly when
`isRestTimerActive && !isRestTimerPaused && restTimerCountdown > 0`; a tick
from a value `≤ 1` deactivates the timer, clamps the countdown to 0 and
raises the rest-complete modal. -/
def restTick (s : SessionState) : SessionState :=
  if s.isRestTimerActive = true ∧ s.isRestTimerPaused = false ∧
      0 < s.restTimerCountdown then
    if s.restTimerCountdown ≤ 1 then
      { s with isRestTimerActive := false, isRestTimerPaused := false,
               restTimerCountdown := 0, showRestCompleteModal := true }
    else
      { s with restTimerCountdown := s.restTimerCountdown - 1 }
  else s

/-- The abandonment path: the surrounding navigation sets the context flag to
false, and the effect then resets the session when a non-completed workout
was started. -/
def abandonWorkout (s : SessionState) : SessionState :=
  let s0 := { s with workoutInProgress := false }
  if s0.isWorkoutStarted = true ∧ s0.isWorkoutCompleted = false then
    { s0 with isWorkoutStarted := false, isPaused := false,
              workoutTimer := 0, exerciseTimer := 0,
              currentExerciseIndex := 0,
              isRestTimerActive := false, isRestTimerPaused := false,
              restTimerCountdown := 0 }
  else s0

/-- The `(field, value)` pairs `updateProgress` is called with. -/
inductive ProgressUpdate where
  | setsCompleted (n : Nat)
  | repsCompleted (n : Nat)
  | roundsCompleted (n : Nat)
  | weightUsed (n : Nat)
  | sets (l : List ExerciseSet)
  | duration (n : Nat)
  | restTime (n : Nat)
  | notes (t : String)
deriving DecidableEq

/-- `{ ...record, [field]: value }`: override exactly the named field. -/
def applyUpdate (u : ProgressUpdate) (p : ExerciseProgress) : ExerciseProgress :=
  match u with
  | .setsCompleted n => { p with setsCompleted := n }
  | .repsCompleted n => { p with repsCompleted := n }
  | .roundsCompleted n => { p with roundsCompleted := n }
  | .weightUsed n => { p with weightUsed := n }
  | .sets l => { p with sets := l }
  | .duration n => { p with duration := n }
  | .restTime n => { p with restTime := n }
  | .notes t => { p with notes := t }

/-- `updateProgress(field, value)`: rewrite the record at the cursor. -/
def updateProgress (u : ProgressUpdate) (s : SessionState) : SessionState :=
  { s with exerciseProgress :=
      updateAt s.currentExerciseIndex (applyUpdate u) s.exerciseProgress }

/-- `completeExercise`: bails out silently without a current exercise or
progress record; then (in order) awaits `getCurrentUser` (failure ends in the
generic error alert), validates that at least one set is logged (else the
validation alert), awaits `createExerciseLog`, and either advances the cursor
or — on the last exercise — awaits `markPlanDayAsComplete` and the dashboard
refresh (when the plan id is truthy) and marks the day complete. -/
def completeExercise (s : SessionState) (env : Env) : OpResult :=
  match currentExercise s, currentProgress s with
  | some _, some prog =>
    if env.authOk = false then
      ⟨s, [], .completeFailed⟩
    else if prog.sets.isEmpty then
      ⟨s, [], .noSetsLogged⟩
    else if env.logOk = false then
      ⟨s, [.createLog], .completeFailed⟩
    else
      if s.currentExerciseIndex < (flattenedExercises s).length - 1 then
        ⟨{ s with currentExerciseIndex := s.currentExerciseIndex + 1,
                  exerciseTimer := 0, showCompleteModal := false },
         [.createLog], .silent⟩
      else
        match s.workout with
        | some w =>
          if w.id ≠ 0 then
            if env.completeOk = false then
              ⟨s, [.createLog, .markDayComplete], .completeFailed⟩
            else if env.refreshOk = false then
              ⟨s, [.createLog, .markDayComplete, .refreshDash], .completeFailed⟩
            else
              ⟨{ s with currentExerciseIndex := (flattenedExercises s).length,
                        isWorkoutCompleted := true, workoutInProgress := false,
                        showCompleteModal := false },
               [.createLog, .markDayComplete, .refreshDash], .workoutComplete⟩
          else
            ⟨{ s with currentExerciseIndex := (flattenedExercises s).length,
                      isWorkoutCompleted := true, workoutInProgress := false,
                      showCompleteModal := false },
             [.createLog], .workoutComplete⟩
        | none =>
          ⟨{ s with currentExerciseIndex := (flattenedExercises s).length,
                    isWorkoutCompleted := true, workoutInProgress := false,
                    showCompleteModal := false },
           [.createLog], .workoutComplete⟩
  | _, _ => ⟨s, [], .silent⟩

/-- `exercises.every((ex, index) => index < cur || skipped.includes(ex.id)
|| index === cur)`, with the explicit running index of `every`. -/
def allProcessedAux (skipped : List Nat) (c : Nat) : Nat → List BlockExercise → Bool
  | _, [] => true
  | i, ex :: rest =>
    (decide (i < c) || skipped.contains ex.id || decide (i = c)) &&
      allProcessedAux skipped c (i + 1) rest

/-- The `allProcessed` check of `skipCurrentExercise` (evaluated over the
pre-call `skippedExercises`, as the closure does). -/
def allProcessedCheck (s : SessionState) : Bool :=
  allProcessedAux s.skippedExercises s.currentExerciseIndex 0 (flattenedExercises s)

/-- `skipCurrentExercise`: bails out silently without a current exercise or
loaded workout; awaits the skip endpoint (failure ends in the generic skip
error), appends the exercise id to `skippedExercises`, marks the record
skipped, and advances with the same end-of-list handling — except that the
day-completion branch is guarded by `allProcessed && workout?.id`. -/
def skipCurrentExercise (s : SessionState) (env : Env) : OpResult :=
  match currentExercise s, s.workout with
  | some cur, some w =>
    if env.skipOk = false then
      ⟨s, [.skipExercise], .skipFailed⟩
    else
      let s1 := { s with
        skippedExercises := s.skippedExercises ++ [cur.id],
        exerciseProgress :=
          updateAt s.currentExerciseIndex (fun p => { p with isSkipped := true })
            s.exerciseProgress }
      if s.currentExerciseIndex < (flattenedExercises s).length - 1 then
        ⟨{ s1 with currentExerciseIndex := s.currentExerciseIndex + 1,
                   exerciseTimer := 0, showSkipModal := false },
         [.skipExercise], .silent⟩
      else
        if allProcessedCheck s = true ∧ w.id ≠ 0 then
          if env.completeOk = false then
            ⟨s1, [.skipExercise, .markDayComplete], .skipFailed⟩
          else
            ⟨{ s1 with currentExerciseIndex := (flattenedExercises s).length,
                       isWorkoutCompleted := true, workoutInProgress := false,
                       showSkipModal := false },
             [.skipExercise, .markDayComplete], .workoutComplete⟩
        else
          ⟨{ s1 with showSkipModal := false }, [.skipExercise], .silent⟩
  | _, _ => ⟨s, [], .silent⟩

/-- The controller operations a session run is a sequence of. -/
inductive Op where
  | load (o : LoadOutcome)
  | start
  | togglePause
  | update (u : ProgressUpdate)
  | complete (env : Env)
  | skip (env : Env)
  | startRest
  | toggleRestPause
  | resetRest
  | cancelRest
  | restTick
  | tick
  | abandon
deriving DecidableEq

/-- One controller step over a fixed plan `p` (the plan the remote serves). -/
def step (p : PlanDay) (s : SessionState) (op : Op) : SessionState :=
  match op with
  | .load o => loadWorkout p o s
  | .start => startWorkout s
  | .togglePause => togglePause s
  | .update u => updateProgress u s
  | .complete env => (completeExercise s env).state
  | .skip env => (skipCurrentExercise s env).state
  | .startRest => startRestTimer s
  | .toggleRestPause => toggleRestTimerPause s
  | .resetRest => resetRestTimer s
  | .cancelRest => cancelRestTimer s
  | .restTick => restTick s
  | .tick => timerTick s
  | .abandon => abandonWorkout s

/-- The initial `useState` values of the component. -/
def initialState : SessionState :=
  { workout := none
    currentExerciseIndex := 0
    isWorkoutStarted := false
    isWorkoutCompleted := false
    isPaused := false
    workoutTimer := 0
    exerciseTimer := 0
    exerciseProgress := []
    skippedExercises := []
    isRestTimerActive := false
    isRestTimerPaused := false
    restTimerCountdown := 0
    showCompleteModal := false
    showRestCompleteModal := false
    showSkipModal := false
    errorMsg := none
    workoutInProgress := false }

/-- A whole session run. -/
def runOps (p : PlanDay) (ops : List Op) : SessionState :=
  ops.foldl (step p) initialState

/-!
Date handling.  Timestamps are minutes since the epoch; a `YYYY-MM-DD`
string is represented by its day number (day strings are equal iff the day
numbers are).  A timezone is its fixed offset in minutes east of UTC.
-/

/-- Minutes in a civil day. -/
def minutesPerDay : Int := 1440

/-- The date part of `Date.toISOString()`: the UTC calendar day. -/
def utcDayOf (t : Int) : Int := Int.fdiv t minutesPerDay

/-- The local calendar day of a timestamp in a timezone. -/
def localDayOf (offset t : Int) : Int := Int.fdiv (t + offset) minutesPerDay

/-- Modelled from the spec: `getCurrentDate` (imported from `@/utils`, whose
source is not part of this slice) returns today's date normalized to a local
`YYYY-MM-DD` string. -/
def getCurrentDate (offset now : Int) : Int := localDayOf offset now

/-- Modelled from the spec: `formatDateAsString` (imported from `@/utils`,
whose source is not part of this slice) normalizes a stored date to the
local `YYYY-MM-DD` string. -/
def formatDateAsString (offset t : Int) : Int := localDayOf offset t

/-- The plan-day lookup of `loadWorkout`:
`planDays.find((day) => formatDateAsString(day.date) === today)`. -/
def findTodaysWorkout (offset now : Int) (days : List PlanDay) : Option PlanDay :=
  days.find? (fun d => formatDateAsString offset d.date == getCurrentDate offset now)

/-- The dashboard-refresh start date built in `completeExercise`:
`startDate.setDate(today.getDate() - 30)` shifts the instant by 30 days, and
`.toISOString().split("T")[0]` then takes the UTC date part.  The timezone
offset is a parameter of the client's situation but does not enter the
result. -/
def dashboardStartDate (_offset now : Int) : Int :=
  utcDayOf (now - 30 * minutesPerDay)

/-- The dashboard-refresh end date built in `completeExercise`
(`today.getDate() + 7`, then the UTC date part of `toISOString()`). -/
def dashboardEndDate (_offset now : Int) : Int :=
  utcDayOf (now + 7 * minutesPerDay)

/-!
Concrete fixtures: a two-exercise plan day and session states reachable on
it, used by the counterexamples and witnesses.
-/

/-- First exercise of the sample plan: 2 sets of 10 at 50, 60s rest. -/
def exA : BlockExercise := ⟨11, some 2, some 10, some 50, none, some 60⟩

/-- Second exercise of the sample plan: 2 sets of 10, 30s rest. -/
def exB : BlockExercise := ⟨12, some 2, some 10, none, none, some 30⟩

/-- A valid two-exercise plan day scheduled today. -/
def plan2 : PlanDay :=
  { id := 7, workoutId := 3, date := 0, isComplete := false,
    blocks := [⟨1, some 1, [exA]⟩, ⟨2, none, [exB]⟩] }

/-- All remote calls succeed. -/
def envAllOk : Env := ⟨true, true, true, true, true⟩

/-- `getCurrentUser()` yields no user; every other call would succeed. -/
def envNoAuth : Env := ⟨false, true, true, true, true⟩

/-- `createExerciseLog` rejects; every other call succeeds. -/
def envNoLog : Env := ⟨true, false, true, true, true⟩

/-- A logged set. -/
def oneSet : ExerciseSet := ⟨10, 50, true⟩

/-- Initial progress record for `exA`. -/
def pA0 : ExerciseProgress := ⟨0, 0, 0, 50, [], 0, 60, "", false⟩

/-- Initial progress record for `exB`. -/
def pB0 : ExerciseProgress := ⟨0, 0, 0, 0, [], 0, 30, "", false⟩

/-- The session right after loading `plan2` and starting the workout
(no sets logged yet). -/
def sReady : SessionState :=
  { initialState with
      workout := some plan2, exerciseProgress := initProgress plan2,
      isWorkoutStarted := true, workoutInProgress := true }

/-- `sReady` after logging one set on the first exercise. -/
def sLogged : SessionState :=
  { sReady with exerciseProgress := [{ pA0 with sets := [oneSet] }, pB0] }

/-- `sLogged` with the rest timer armed mid-countdown on the first
exercise. -/
def sResting : SessionState :=
  { sLogged with isRestTimerActive := true, restTimerCountdown := 30 }

/-- A session on the last exercise of `plan2`, both exercises with a logged
set. -/
def sLast : SessionState :=
  { sReady with
      currentExerciseIndex := 1,
      exerciseProgress := [{ pA0 with sets := [oneSet] }, { pB0 with sets := [oneSet] }] }

/-- The completed-day state of a `plan2` session. -/
def sDone : SessionState :=
  { sLast with currentExerciseIndex := 2, isWorkoutCompleted := true,
               workoutInProgress := false }

/-!
Helper lemmas about `updateAt`.
-/

theorem length_updateAt (n : Nat) (f : α → α) (l : List α) :
    (updateAt n f l).length = l.length := by
  induction l generalizing n with
  | nil => simp [updateAt]
  | cons x xs ih =>
    cases n with
    | zero => rfl
    | succ m => simp [updateAt, ih]

theorem get?_updateAt_ne {n j : Nat} (h : j ≠ n) (f : α → α) (l : List α) :
    (updateAt n f l).get? j = l.get? j := by
  induction l generalizing n j with
  | nil => simp [updateAt]
  | cons x xs ih =>
    cases n with
    | zero =>
      cases j with
      | zero => exact absurd rfl h
      | succ k => rfl
    | succ m =>
      cases j with
      | zero => rfl
      | succ k =>
        show (updateAt m f xs).get? k = xs.get? k
        exact ih (fun hh => h (by rw [hh]))

theorem get?_updateAt_self (n : Nat) (f : α → α) (l : List α) :
    (updateAt n f l).get? n = (l.get? n).map f := by
  induction l generalizing n with
  | nil => simp [updateAt]
  | cons x xs ih =>
    cases n with
    | zero => rfl
    | succ m => exact ih m

/-- C9: `updateProgress(field, value)` rewrites only the named field of the
progress record at the current cursor index (`applyUpdate u` overrides
exactly that field); every other progress record, the cursor, the day-state
flags, both elapsed timers, the loaded workout, the skip list and the rest
timer are unchanged. -/
theorem updateProgress_frame (s : SessionState) (u : ProgressUpdate) :
    (updateProgress u s).exerciseProgress.length = s.exerciseProgress.length ∧
    (∀ j, j ≠ s.currentExerciseIndex →
      (updateProgress u s).exerciseProgress.get? j = s.exerciseProgress.get? j) ∧
    (updateProgress u s).exerciseProgress.get? s.currentExerciseIndex =
      (s.exerciseProgress.get? s.currentExerciseIndex).map (applyUpdate u) ∧
    (updateProgress u s).currentExerciseIndex = s.currentExerciseIndex ∧
    (updateProgress u s).isWorkoutStarted = s.isWorkoutStarted ∧
    (updateProgress u s).isWorkoutCompleted = s.isWorkoutCompleted ∧
    (updateProgress u s).isPaused = s.isPaused ∧
    (updateProgress u s).workoutTimer = s.workoutTimer ∧
    (updateProgress u s).exerciseTimer = s.exerciseTimer ∧
    (updateProgress u s).workout = s.workout ∧
    (updateProgress u s).skippedExercises = s.skippedExercises ∧
    (updateProgress u s).isRestTimerActive = s.isRestTimerActive ∧
    (updateProgress u s).restTimerCountdown = s.restTimerCountdown :=
  ⟨length_updateAt _ _ _, fun _ hj => get?_updateAt_ne hj _ _,
   get?_updateAt_self _ _ _, rfl, rfl, rfl, rfl, rfl, rfl, rfl, rfl, rfl, rfl⟩

theorem updateProgress_frame_witness :
    (updateProgress (ProgressUpdate.notes "felt strong") sLogged).exerciseProgress.get? 1 =
      sLogged.exerciseProgress.get? 1 ∧
    (updateProgress (ProgressUpdate.notes "felt strong") sLogged).workoutTimer =
      sLogged.workoutTimer := by
  have h := updateProgress_frame sLogged (ProgressUpdate.notes "felt strong")
  exact ⟨h.2.1 1 (by decide), h.2.2.2.2.2.2.2.1⟩

/-- C7: while paused a tick changes nothing at all; toggling the pause flag
never changes the counters; and after pausing, any number of ticks, and
resuming, the very next tick increments both counters from exactly the
values they held when paused. -/
theorem pause_freezes_timers (s : SessionState)
    (h1 : s.isWorkoutStarted = true) (h2 : s.isWorkoutCompleted = false) :
    (s.isPaused = true → timerTick s = s) ∧
    ((togglePause s).workoutTimer = s.workoutTimer ∧
      (togglePause s).exerciseTimer = s.exerciseTimer) ∧
    (s.isPaused = false → ∀ k : Nat,
      (timerTick^[k] (togglePause s)).workoutTimer = s.workoutTimer ∧
      (timerTick^[k] (togglePause s)).exerciseTimer = s.exerciseTimer ∧
      (timerTick (togglePause (timerTick^[k] (togglePause s)))).workoutTimer =
        s.workoutTimer + 1 ∧
      (timerTick (togglePause (timerTick^[k] (togglePause s)))).exerciseTimer =
        s.exerciseTimer + 1) := by
  refine ⟨fun hp => by simp [timerTick, hp], ⟨rfl, rfl⟩, fun hp k => ?_⟩
  have hfix : timerTick (togglePause s) = togglePause s := by
    simp [timerTick, togglePause, hp]
  have hit : timerTick^[k] (togglePause s) = togglePause s :=
    Function.iterate_fixed hfix k
  rw [hit]
  have hres : togglePause (togglePause s) = s := by
    simp [togglePause, Bool.not_not]
  rw [hres]
  refine ⟨rfl, rfl, ?_, ?_⟩ <;> simp [timerTick, h1, h2, hp]

theorem pause_freezes_timers_witness :
    (timerTick^[5] (togglePause sLogged)).workoutTimer = sLogged.workoutTimer ∧
    (timerTick (togglePause (timerTick^[5] (togglePause sLogged)))).workoutTimer =
      sLogged.workoutTimer + 1 := by
  have h := (pause_freezes_timers sLogged rfl rfl).2.2 rfl 5
  exact ⟨h.1, h.2.2.1⟩

/-!
Rest-timer countdown lemmas.
-/

theorem restTick_gt_one {s : SessionState} (ha : s.isRestTimerActive = true)
    (hp : s.isRestTimerPaused = false) (hc : 1 < s.restTimerCountdown) :
    restTick s = { s with restTimerCountdown := s.restTimerCountdown - 1 } := by
  rw [restTick, if_pos ⟨ha, hp, lt_trans zero_lt_one hc⟩, if_neg (not_le.mpr hc)]

theorem restTick_eq_one {s : SessionState} (ha : s.isRestTimerActive = true)
    (hp : s.isRestTimerPaused = false) (hc : s.restTimerCountdown = 1) :
    restTick s = { s with isRestTimerActive := false, isRestTimerPaused := false,
                          restTimerCountdown := 0, showRestCompleteModal := true } := by
  rw [restTick, if_pos ⟨ha, hp, by rw [hc]; exact zero_lt_one⟩, if_pos (le_of_eq hc)]

theorem restTick_run_lt (k : Nat) : ∀ (s : SessionState) (c : Int),
    s.isRestTimerActive = true → s.isRestTimerPaused = false →
    s.restTimerCountdown = c → (k : Int) < c →
    (restTick^[k] s).isRestTimerActive = true ∧
    (restTick^[k] s).isRestTimerPaused = false ∧
    (restTick^[k] s).restTimerCountdown = c - k ∧
    (restTick^[k] s).showRestCompleteModal = s.showRestCompleteModal := by
  induction k with
  | zero =>
    intro s c ha hp hc _
    exact ⟨ha, hp, by simpa using hc, rfl⟩
  | succ m ih =>
    intro s c ha hp hc hk
    rw [Function.iterate_succ_apply]
    have hgt : 1 < s.restTimerCountdown := by
      rw [hc]; push_cast at hk; omega
    rw [restTick_gt_one ha hp hgt]
    have h := ih { s with restTimerCountdown := s.restTimerCountdown - 1 }
      (c - 1) ha hp (by simp [hc]) (by push_cast at hk ⊢; omega)
    refine ⟨h.1, h.2.1, ?_, h.2.2.2⟩
    rw [h.2.2.1]; push_cast; ring

/-- C6: a rest timer armed with countdown `N > 0` and never paused counts
down by exactly one per tick (after `k ≤ N` ticks the countdown is `N - k`,
never negative), stays active through the first `N - 1` ticks, and on the
`N`-th tick reaches exactly zero, deactivates, and signals rest-complete by
raising the rest-complete modal — a state transition, not an exception. -/
theorem restTimer_countdown_exact (N : Nat) (hN : 0 < N) (s : SessionState)
    (ha : s.isRestTimerActive = true) (hp : s.isRestTimerPaused = false)
    (hc : s.restTimerCountdown = (N : Int)) :
    (∀ k, k ≤ N → (restTick^[k] s).restTimerCountdown = (N : Int) - (k : Int) ∧
      0 ≤ (restTick^[k] s).restTimerCountdown) ∧
    (∀ k, k < N → (restTick^[k] s).isRestTimerActive = true ∧
      (restTick^[k] s).isRestTimerPaused = false) ∧
    (restTick^[N] s).restTimerCountdown = 0 ∧
    (restTick^[N] s).isRestTimerActive = false ∧
    (restTick^[N] s).showRestCompleteModal = true := by
  have hfin : (restTick^[N] s).restTimerCountdown = 0 ∧
      (restTick^[N] s).isRestTimerActive = false ∧
      (restTick^[N] s).showRestCompleteModal = true := by
    obtain ⟨m, rfl⟩ : ∃ m, N = m + 1 := ⟨N - 1, by omega⟩
    have h := restTick_run_lt m s ((m : Int) + 1) ha hp (by push_cast at hc ⊢; omega)
      (by omega)
    rw [Function.iterate_succ_apply']
    have hone : (restTick^[m] s).restTimerCountdown = 1 := by
      rw [h.2.2.1]; ring
    rw [restTick_eq_one h.1 h.2.1 hone]
    exact ⟨rfl, rfl, rfl⟩
  refine ⟨fun k hk => ?_, fun k hk => ?_, hfin⟩
  · rcases lt_or_eq_of_le hk with hlt | rfl
    · have h := restTick_run_lt k s (N : Int) ha hp hc (by exact_mod_cast hlt)
      refine ⟨h.2.2.1, ?_⟩
      rw [h.2.2.1]
      have : (k : Int) < (N : Int) := by exact_mod_cast hlt
      omega
    · exact ⟨by rw [hfin.1]; ring, by rw [hfin.1]⟩
  · have h := restTick_run_lt k s (N : Int) ha hp hc (by exact_mod_cast hk)
    exact ⟨h.1, h.2.1⟩

/-!
The `allProcessed` check of `skipCurrentExercise` is true whenever the
cursor is on the last exercise (every index is then below or at the
cursor).
-/

theorem allProcessedAux_of_le (skipped : List Nat) (c : Nat) :
    ∀ (l : List BlockExercise) (i : Nat), i + l.length ≤ c + 1 →
    allProcessedAux skipped c i l = true := by
  intro l
  induction l with
  | nil => intro i _; rfl
  | cons x xs ih =>
    intro i hi
    have hlen : i + (xs.length + 1) ≤ c + 1 := by
      simpa [Nat.add_comm, Nat.add_left_comm] using hi
    unfold allProcessedAux
    rw [Bool.and_eq_true]
    refine ⟨?_, ih (i + 1) (by omega)⟩
    have h : i < c ∨ i = c := by omega
    rcases h with h | h <;> simp [h]

theorem allProcessed_of_last (s : SessionState)
    (h : s.currentExerciseIndex + 1 = (flattenedExercises s).length) :
    allProcessedCheck s = true :=
  allProcessedAux_of_le s.skippedExercises s.currentExerciseIndex
    (flattenedExercises s) 0 (by omega)

/-- A current exercise exists only at an in-range cursor. -/
theorem cursor_lt_of_currentExercise {s : SessionState} {cur : BlockExercise}
    (h : currentExercise s = some cur) :
    s.currentExerciseIndex < (flattenedExercises s).length := by
  unfold currentExercise at h
  exact (List.get?_eq_some.mp h).1

/-- Spec of a fully successful `skipCurrentExercise` run: the skip list
grows by the current exercise's id, the cursor strictly advances, and on the
last exercise the day-completion request is issued exactly once and the day
becomes complete. -/
theorem skip_success (s : SessionState) (env : Env) (cur : BlockExercise) (w : PlanDay)
    (hcur : currentExercise s = some cur) (hw : s.workout = some w) (hid : w.id ≠ 0)
    (hskip : env.skipOk = true) (hcomp : env.completeOk = true) :
    (skipCurrentExercise s env).state.skippedExercises =
      s.skippedExercises ++ [cur.id] ∧
    s.currentExerciseIndex < (skipCurrentExercise s env).state.currentExerciseIndex ∧
    (s.currentExerciseIndex + 1 = (flattenedExercises s).length →
      (skipCurrentExercise s env).calls.count RemoteCall.markDayComplete = 1 ∧
      (skipCurrentExercise s env).state.isWorkoutCompleted = true ∧
      (skipCurrentExercise s env).state.currentExerciseIndex = exerciseCountS s ∧
      (skipCurrentExercise s env).alert = AlertMsg.workoutComplete) := by
  have hlt := cursor_lt_of_currentExercise hcur
  by_cases hbr : s.currentExerciseIndex < (flattenedExercises s).length - 1
  · simp [skipCurrentExercise, hcur, hw, hskip, hbr]
    exact fun habs => absurd habs (by omega)
  · have hlast : s.currentExerciseIndex + 1 = (flattenedExercises s).length := by omega
    have hall := allProcessed_of_last s hlast
    simp [skipCurrentExercise, hcur, hw, hskip, hbr, hall, hid, hcomp, exerciseCountS]
    omega

/-- C10: the displayed overall progress is
`(cursor + skipped.length) / exerciseCount * 100`; a fully successful
`skipExercise()` both appends to the skipped list and strictly advances the
cursor (so a skipped exercise contributes to both terms), and whenever the
cursor has reached the exercise count with at least one exercise skipped
the percentage exceeds 100. -/
theorem progressPercent_skipped_overcount :
    (∀ s : SessionState, 0 < exerciseCountS s →
      progressPercent s =
        (((s.currentExerciseIndex : Rat) + (s.skippedExercises.length : Rat)) /
          (exerciseCountS s : Rat)) * 100) ∧
    (∀ (s : SessionState) (env : Env) (cur : BlockExercise) (w : PlanDay),
      currentExercise s = some cur → s.workout = some w → w.id ≠ 0 →
      env.skipOk = true → env.completeOk = true →
      (skipCurrentExercise s env).state.skippedExercises.length =
        s.skippedExercises.length + 1 ∧
      s.currentExerciseIndex < (skipCurrentExercise s env).state.currentExerciseIndex) ∧
    (∀ s : SessionState, 0 < exerciseCountS s →
      s.currentExerciseIndex = exerciseCountS s →
      1 ≤ s.skippedExercises.length → 100 < progressPercent s) := by
  refine ⟨fun s h => by rw [progressPercent, if_pos h],
    fun s env cur w hcur hw hid hskip hcomp => ?_, fun s h hcur hskip => ?_⟩
  · have hs := skip_success s env cur w hcur hw hid hskip hcomp
    exact ⟨by rw [hs.1, List.length_append, List.length_singleton], hs.2.1⟩
  · rw [progressPercent, if_pos h]
    have hn : (0 : Rat) < (exerciseCountS s : Rat) := by exact_mod_cast h
    have hlt : (1 : Rat) <
        ((s.currentExerciseIndex : Rat) + (s.skippedExercises.length : Rat)) /
          (exerciseCountS s : Rat) := by
      rw [lt_div_iff₀ hn, one_mul, hcur]
      have hk : (1 : Rat) ≤ (s.skippedExercises.length : Rat) := by exact_mod_cast hskip
      linarith
    have := mul_lt_mul_of_pos_right hlt (by norm_num : (0 : Rat) < 100)
    simpa using this


/-- `sDone` with one exercise recorded as skipped: cursor at the exercise
count and a non-empty skip list. -/
def sOver : SessionState := { sDone with skippedExercises := [11] }

theorem progressPercent_skipped_overcount_witness :
    (skipCurrentExercise sLogged envAllOk).state.skippedExercises.length =
      sLogged.skippedExercises.length + 1 ∧
    100 < progressPercent sOver := by
  have h := progressPercent_skipped_overcount
  exact ⟨(h.2.1 sLogged envAllOk exA plan2 (by decide) rfl (by decide) rfl rfl).1,
    h.2.2 sOver (by decide) (by decide) (by decide)⟩

/-- C8 counterexample: for a client at UTC-4 one hour past UTC midnight,
`completeExercise`'s dashboard-refresh start date (the UTC date part of
`toISOString()`) is day 70, while the local `YYYY-MM-DD` date of the same
instant (today minus 30 days) is day 69 — the transmitted date is not the
local date string. -/
theorem dashboardDates_not_local_cex :
    getCurrentDate (-240) (100 * 1440 + 60) = 99 ∧
    dashboardStartDate (-240) (100 * 1440 + 60) = 70 ∧
    localDayOf (-240) (100 * 1440 + 60 - 30 * minutesPerDay) = 69 ∧
    dashboardStartDate (-240) (100 * 1440 + 60) ≠
      localDayOf (-240) (100 * 1440 + 60 - 30 * minutesPerDay) := by decide

/-- C8 (amended): `load()` does select the PlanDay whose normalized local
date string equals today's local date string (string comparison via
`formatDateAsString`/`getCurrentDate`); but the dashboard-refresh date range
sent after day completion consists of the UTC date parts of now-30d/now+7d —
independent of the client's timezone offset, and equal to the local date
strings only when the local calendar day coincides with the UTC one (e.g. at
offset 0). -/
theorem date_normalization :
    (∀ (offset now : Int) (days : List PlanDay) (d : PlanDay),
      findTodaysWorkout offset now days = some d →
      formatDateAsString offset d.date = getCurrentDate offset now) ∧
    (∀ o1 o2 now : Int,
      dashboardStartDate o1 now = dashboardStartDate o2 now ∧
      dashboardEndDate o1 now = dashboardEndDate o2 now) ∧
    (∀ now : Int,
      dashboardStartDate 0 now = localDayOf 0 (now - 30 * minutesPerDay) ∧
      dashboardEndDate 0 now = localDayOf 0 (now + 7 * minutesPerDay)) := by
  refine ⟨fun offset now days d h => ?_, fun o1 o2 now => ⟨rfl, rfl⟩,
    fun now => ⟨?_, ?_⟩⟩
  · have hp := List.find?_some h
    simpa [beq_iff_eq] using hp
  · simp [dashboardStartDate, localDayOf, utcDayOf]
  · simp [dashboardEndDate, localDayOf, utcDayOf]

theorem date_normalization_witness :
    formatDateAsString 0 plan2.date = getCurrentDate 0 500 :=
  date_normalization.1 0 500 [plan2] plan2 (by decide)


/-- C2: whenever a `completeExercise()` run makes the exercise-log request
and it fails, or makes the day-completion request and it fails, the call
ends in the recoverable generic error alert and returns the session state
untouched — cursor, day-completed flag and all progress records are exactly
what they were, so a retry loses nothing. -/
theorem completeExercise_failure_frame (s : SessionState) (env : Env)
    (h : (RemoteCall.createLog ∈ (completeExercise s env).calls ∧ env.logOk = false) ∨
      (RemoteCall.markDayComplete ∈ (completeExercise s env).calls ∧
        env.completeOk = false)) :
    (completeExercise s env).alert = AlertMsg.completeFailed ∧
    (completeExercise s env).state.currentExerciseIndex = s.currentExerciseIndex ∧
    (completeExercise s env).state.isWorkoutCompleted = s.isWorkoutCompleted ∧
    (completeExercise s env).state.exerciseProgress = s.exerciseProgress ∧
    (completeExercise s env).state = s := by
  revert h
  unfold completeExercise
  repeat' split
  all_goals intro h
  all_goals simp_all

theorem completeExercise_failure_frame_witness :
    (completeExercise sLogged envNoLog).alert = AlertMsg.completeFailed ∧
    (completeExercise sLogged envNoLog).state = sLogged := by
  have h := completeExercise_failure_frame sLogged envNoLog (Or.inl ⟨by decide, rfl⟩)
  exact ⟨h.1, h.2.2.2.2⟩

/-- C4: on the last exercise a fully successful `completeExercise()` (at
least one set logged, plan id truthy, all remote calls succeed) issues the
day-completion request exactly once and sets the day state to Completed with
the cursor at the exercise count; a fully successful `skipExercise()` there
does the same; and once the day is completed (cursor at the exercise count)
a further `completeExercise()` is a no-op — state unchanged, no remote
calls (the completed state is what renders as "already complete"). -/
theorem dayCompletion_exactlyOnce :
    (∀ (s : SessionState) (env : Env) (w : PlanDay) (prog : ExerciseProgress),
      s.workout = some w → w.id ≠ 0 →
      currentProgress s = some prog → prog.sets ≠ [] →
      s.currentExerciseIndex + 1 = (flattenedExercises s).length →
      env.authOk = true → env.logOk = true → env.completeOk = true →
      env.refreshOk = true →
      (completeExercise s env).calls.count RemoteCall.markDayComplete = 1 ∧
      (completeExercise s env).state.isWorkoutCompleted = true ∧
      (completeExercise s env).state.currentExerciseIndex = exerciseCountS s ∧
      (completeExercise s env).alert = AlertMsg.workoutComplete) ∧
    (∀ (s : SessionState) (env : Env) (w : PlanDay) (cur : BlockExercise),
      currentExercise s = some cur → s.workout = some w → w.id ≠ 0 →
      s.currentExerciseIndex + 1 = (flattenedExercises s).length →
      env.skipOk = true → env.completeOk = true →
      (skipCurrentExercise s env).calls.count RemoteCall.markDayComplete = 1 ∧
      (skipCurrentExercise s env).state.isWorkoutCompleted = true ∧
      (skipCurrentExercise s env).state.currentExerciseIndex = exerciseCountS s) ∧
    (∀ (s : SessionState) (env : Env),
      s.currentExerciseIndex = exerciseCountS s →
      completeExercise s env = ⟨s, [], AlertMsg.silent⟩) := by
  refine ⟨fun s env w prog hw hid hprog hsets hlast hauth hlog hcomp href => ?_,
    fun s env w cur hcur hw hid hlast hskip hcomp => ?_,
    fun s env hdone => ?_⟩
  · cases hcur : currentExercise s with
    | none =>
      exfalso
      unfold currentExercise at hcur
      have := List.get?_eq_none.mp hcur
      omega
    | some cur =>
      have hne : prog.sets.isEmpty = false := by
        cases hs : prog.sets with
        | nil => exact absurd hs hsets
        | cons a l => rfl
      have hbr : ¬ s.currentExerciseIndex < (flattenedExercises s).length - 1 := by
        omega
      simp [completeExercise, hcur, hprog, hauth, hne, hlog, hbr, hw, hid, hcomp,
        href, exerciseCountS]
  · have hs := (skip_success s env cur w hcur hw hid hskip hcomp).2.2 hlast
    exact ⟨hs.1, hs.2.1, hs.2.2.1⟩
  · have hcur : currentExercise s = none := by
      unfold currentExercise
      exact List.get?_eq_none.mpr (by rw [hdone]; exact le_refl _)
    simp [completeExercise, hcur]

theorem dayCompletion_exactlyOnce_witness :
    (completeExercise sLast envAllOk).calls.count RemoteCall.markDayComplete = 1 ∧
    (completeExercise sLast envAllOk).state.isWorkoutCompleted = true ∧
    (skipCurrentExercise sLast envAllOk).calls.count RemoteCall.markDayComplete = 1 ∧
    completeExercise sDone envAllOk = ⟨sDone, [], AlertMsg.silent⟩ := by
  have h := dayCompletion_exactlyOnce
  have ha := h.1 sLast envAllOk plan2 { pB0 with sets := [oneSet] } rfl (by decide)
    (by decide) (by decide) (by decide) rfl rfl rfl rfl
  have hb := h.2.1 sLast envAllOk plan2 exB (by decide) rfl (by decide) (by decide)
    rfl rfl
  exact ⟨ha.1, ha.2.1, hb.1, h.2.2 sDone envAllOk (by decide)⟩


/-!
Cursor-invariant machinery.  `complete_cases` and `skip_cases` classify the
possible cursor/day-state transitions of the two advancing operations.
-/

theorem complete_cases (s : SessionState) (env : Env) :
    ((completeExercise s env).state.currentExerciseIndex = s.currentExerciseIndex ∧
      (completeExercise s env).state.isWorkoutCompleted = s.isWorkoutCompleted ∧
      (completeExercise s env).state.workout = s.workout) ∨
    ((completeExercise s env).state.currentExerciseIndex = s.currentExerciseIndex + 1 ∧
      s.currentExerciseIndex + 1 < (flattenedExercises s).length ∧
      (completeExercise s env).state.isWorkoutCompleted = s.isWorkoutCompleted ∧
      (completeExercise s env).state.workout = s.workout) ∨
    ((completeExercise s env).state.currentExerciseIndex = (flattenedExercises s).length ∧
      (completeExercise s env).state.isWorkoutCompleted = true ∧
      (completeExercise s env).state.workout = s.workout ∧
      s.currentExerciseIndex < (flattenedExercises s).length) := by
  cases hcur : currentExercise s with
  | none => exact Or.inl (by simp [completeExercise, hcur])
  | some cur =>
    cases hprog : currentProgress s with
    | none => exact Or.inl (by simp [completeExercise, hcur, hprog])
    | some prog =>
      have hlt := cursor_lt_of_currentExercise hcur
      by_cases hauth : env.authOk = false
      · exact Or.inl (by simp [completeExercise, hcur, hprog, hauth])
      · by_cases hempty : prog.sets.isEmpty = true
        · exact Or.inl (by simp [completeExercise, hcur, hprog, hauth, hempty])
        · by_cases hlog : env.logOk = false
          · exact Or.inl (by simp [completeExercise, hcur, hprog, hauth, hempty, hlog])
          · by_cases hbr : s.currentExerciseIndex < (flattenedExercises s).length - 1
            · refine Or.inr (Or.inl ?_)
              have hst : (completeExercise s env).state =
                  { s with currentExerciseIndex := s.currentExerciseIndex + 1,
                           exerciseTimer := 0, showCompleteModal := false } := by
                simp [completeExercise, hcur, hprog, hauth, hempty, hlog, hbr]
              rw [hst]
              exact ⟨rfl, by omega, rfl, rfl⟩
            · cases hwk : s.workout with
              | none =>
                refine Or.inr (Or.inr ?_)
                have hst : (completeExercise s env).state =
                    { s with currentExerciseIndex := (flattenedExercises s).length,
                             isWorkoutCompleted := true, workoutInProgress := false,
                             showCompleteModal := false } := by
                  simp [completeExercise, hcur, hprog, hauth, hempty, hlog, hbr, hwk]
                rw [hst]
                exact ⟨rfl, rfl, hwk, hlt⟩
              | some w =>
                by_cases hid : w.id ≠ 0
                · by_cases hcomp : env.completeOk = false
                  · exact Or.inl (by
                      simp [completeExercise, hcur, hprog, hauth, hempty, hlog, hbr,
                        hwk, hid, hcomp])
                  · by_cases href : env.refreshOk = false
                    · exact Or.inl (by
                        simp [completeExercise, hcur, hprog, hauth, hempty, hlog, hbr,
                          hwk, hid, hcomp, href])
                    · refine Or.inr (Or.inr ?_)
                      have hst : (completeExercise s env).state =
                          { s with currentExerciseIndex := (flattenedExercises s).length,
                                   isWorkoutCompleted := true, workoutInProgress := false,
                                   showCompleteModal := false } := by
                        simp [completeExercise, hcur, hprog, hauth, hempty, hlog, hbr,
                          hwk, hid, hcomp, href]
                      rw [hst]
                      exact ⟨rfl, rfl, hwk, hlt⟩
                · refine Or.inr (Or.inr ?_)
                  have hst : (completeExercise s env).state =
                      { s with currentExerciseIndex := (flattenedExercises s).length,
                               isWorkoutCompleted := true, workoutInProgress := false,
                               showCompleteModal := false } := by
                    simp [completeExercise, hcur, hprog, hauth, hempty, hlog, hbr,
                      hwk, hid]
                  rw [hst]
                  exact ⟨rfl, rfl, hwk, hlt⟩

theorem skip_cases (s : SessionState) (env : Env) :
    ((skipCurrentExercise s env).state.currentExerciseIndex = s.currentExerciseIndex ∧
      (skipCurrentExercise s env).state.isWorkoutCompleted = s.isWorkoutCompleted ∧
      (skipCurrentExercise s env).state.workout = s.workout) ∨
    ((skipCurrentExercise s env).state.currentExerciseIndex = s.currentExerciseIndex + 1 ∧
      s.currentExerciseIndex + 1 < (flattenedExercises s).length ∧
      (skipCurrentExercise s env).state.isWorkoutCompleted = s.isWorkoutCompleted ∧
      (skipCurrentExercise s env).state.workout = s.workout) ∨
    ((skipCurrentExercise s env).state.currentExerciseIndex = (flattenedExercises s).length ∧
      (skipCurrentExercise s env).state.isWorkoutCompleted = true ∧
      (skipCurrentExercise s env).state.workout = s.workout ∧
      s.currentExerciseIndex < (flattenedExercises s).length) := by
  cases hcur : currentExercise s with
  | none => exact Or.inl (by simp [skipCurrentExercise, hcur])
  | some cur =>
    cases hwk : s.workout with
    | none => exact Or.inl (by simp [skipCurrentExercise, hcur, hwk])
    | some w =>
      have hlt := cursor_lt_of_currentExercise hcur
      by_cases hskip : env.skipOk = false
      · exact Or.inl (by simp [skipCurrentExercise, hcur, hwk, hskip])
      · by_cases hbr : s.currentExerciseIndex < (flattenedExercises s).length - 1
        · refine Or.inr (Or.inl ?_)
          have hst : (skipCurrentExercise s env).state.currentExerciseIndex =
                s.currentExerciseIndex + 1 ∧
              (skipCurrentExercise s env).state.isWorkoutCompleted =
                s.isWorkoutCompleted ∧
              (skipCurrentExercise s env).state.workout = s.workout := by
            simp [skipCurrentExercise, hcur, hwk, hskip, hbr]
          exact ⟨hst.1, by omega, hst.2.1, hst.2.2.trans hwk⟩
        · by_cases hall : allProcessedCheck s = true ∧ w.id ≠ 0
          · by_cases hcomp : env.completeOk = false
            · exact Or.inl (by simp [skipCurrentExercise, hcur, hwk, hskip, hbr,
                hall, hcomp])
            · refine Or.inr (Or.inr ?_)
              have hst : (skipCurrentExercise s env).state.currentExerciseIndex =
                    (flattenedExercises s).length ∧
                  (skipCurrentExercise s env).state.isWorkoutCompleted = true ∧
                  (skipCurrentExercise s env).state.workout = s.workout := by
                simp [skipCurrentExercise, hcur, hwk, hskip, hbr, hall, hcomp]
              exact ⟨hst.1, hst.2.1, hst.2.2.trans hwk, hlt⟩
          · exact Or.inl (by simp [skipCurrentExercise, hcur, hwk, hskip, hbr, hall])


/-- The inductive invariant of a session over a fixed plan `p`: the loaded
workout (if any) is `p`, the cursor never passes the exercise count, and a
cursor at the count always comes with a completed day. -/
def CursorInv (p : PlanDay) (s : SessionState) : Prop :=
  (s.workout = none ∨ s.workout = some p) ∧
  s.currentExerciseIndex ≤ planExerciseCount p ∧
  (s.currentExerciseIndex = planExerciseCount p → s.isWorkoutCompleted = true)

theorem flattenedExercises_some {s : SessionState} {p : PlanDay}
    (h : s.workout = some p) : flattenedExercises s = flattenPlan p := by
  simp [flattenedExercises, h]

theorem flattenedExercises_none {s : SessionState} (h : s.workout = none) :
    flattenedExercises s = [] := by
  simp [flattenedExercises, h]

theorem cursorInv_step (p : PlanDay) (hp : flattenPlan p ≠ []) (s : SessionState)
    (op : Op) (h : CursorInv p s) : CursorInv p (step p s op) := by
  obtain ⟨hw, hle, hcm⟩ := h
  have hcount : 0 < planExerciseCount p := List.length_pos.mpr hp
  cases op with
  | load o =>
    cases o with
    | fetchError => exact ⟨hw, hle, hcm⟩
    | found =>
      show CursorInv p (loadWorkout p LoadOutcome.found s)
      unfold loadWorkout
      by_cases hc : p.isComplete
      · rw [if_pos hc]
        exact ⟨Or.inr rfl, hle, fun _ => rfl⟩
      · rw [if_neg hc]
        exact ⟨Or.inr rfl, hle, hcm⟩
  | start => exact ⟨hw, hle, hcm⟩
  | togglePause => exact ⟨hw, hle, hcm⟩
  | update u => exact ⟨hw, hle, hcm⟩
  | startRest =>
    show CursorInv p (startRestTimer s)
    unfold startRestTimer
    dsimp only
    split
    · exact ⟨hw, hle, hcm⟩
    · exact ⟨hw, hle, hcm⟩
  | toggleRestPause => exact ⟨hw, hle, hcm⟩
  | resetRest => exact ⟨hw, hle, hcm⟩
  | cancelRest => exact ⟨hw, hle, hcm⟩
  | restTick =>
    show CursorInv p (restTick s)
    unfold restTick
    repeat' split
    all_goals exact ⟨hw, hle, hcm⟩
  | tick =>
    show CursorInv p (timerTick s)
    unfold timerTick
    split
    · exact ⟨hw, hle, hcm⟩
    · exact ⟨hw, hle, hcm⟩
  | abandon =>
    show CursorInv p (abandonWorkout s)
    unfold abandonWorkout
    dsimp only
    split
    · exact ⟨hw, Nat.zero_le _,
        fun h0 => absurd (show (0 : Nat) = planExerciseCount p from h0) (by omega)⟩
    · exact ⟨hw, hle, hcm⟩
  | complete env =>
    show CursorInv p (completeExercise s env).state
    have hpc : planExerciseCount p = (flattenPlan p).length := rfl
    rcases complete_cases s env with ⟨h1, h2, h3⟩ | ⟨h1, h2, h3, h4⟩ | ⟨h1, h2, h3, h4⟩
    · exact ⟨by rw [h3]; exact hw, by rw [h1]; exact hle,
        fun h0 => by rw [h2]; exact hcm (by omega)⟩
    · rcases hw with hwn | hwp
      · rw [flattenedExercises_none hwn, List.length_nil] at h2
        exact absurd h2 (by omega)
      · rw [flattenedExercises_some hwp] at h2
        exact ⟨by rw [h4]; exact Or.inr hwp, by omega,
          fun h0 => absurd h0 (by omega)⟩
    · rcases hw with hwn | hwp
      · rw [flattenedExercises_none hwn, List.length_nil] at h1 h4
        exact ⟨by rw [h3]; exact Or.inl hwn, by omega, fun _ => h2⟩
      · rw [flattenedExercises_some hwp] at h1 h4
        exact ⟨by rw [h3]; exact Or.inr hwp, by omega, fun _ => h2⟩
  | skip env =>
    show CursorInv p (skipCurrentExercise s env).state
    have hpc : planExerciseCount p = (flattenPlan p).length := rfl
    rcases skip_cases s env with ⟨h1, h2, h3⟩ | ⟨h1, h2, h3, h4⟩ | ⟨h1, h2, h3, h4⟩
    · exact ⟨by rw [h3]; exact hw, by rw [h1]; exact hle,
        fun h0 => by rw [h2]; exact hcm (by omega)⟩
    · rcases hw with hwn | hwp
      · rw [flattenedExercises_none hwn, List.length_nil] at h2
        exact absurd h2 (by omega)
      · rw [flattenedExercises_some hwp] at h2
        exact ⟨by rw [h4]; exact Or.inr hwp, by omega,
          fun h0 => absurd h0 (by omega)⟩
    · rcases hw with hwn | hwp
      · rw [flattenedExercises_none hwn, List.length_nil] at h1 h4
        exact ⟨by rw [h3]; exact Or.inl hwn, by omega, fun _ => h2⟩
      · rw [flattenedExercises_some hwp] at h1 h4
        exact ⟨by rw [h3]; exact Or.inr hwp, by omega, fun _ => h2⟩

theorem cursorInv_run (p : PlanDay) (hp : flattenPlan p ≠ []) (ops : List Op) :
    CursorInv p (runOps p ops) := by
  have hinit : CursorInv p initialState :=
    ⟨Or.inl rfl, Nat.zero_le _,
      fun h0 => absurd (show (0 : Nat) = planExerciseCount p from h0) (by
        have : 0 < planExerciseCount p := List.length_pos.mpr hp
        omega)⟩
  suffices hstep : ∀ (l : List Op) (s : SessionState), CursorInv p s →
      CursorInv p (l.foldl (step p) s) from hstep ops initialState hinit
  intro l
  induction l with
  | nil => intro s hs; exact hs
  | cons op rest ih => intro s hs; exact ih _ (cursorInv_step p hp s op hs)

/-- C3 counterexample: on the valid two-exercise plan `plan2`, loading,
starting, logging a set and completing the first exercise moves the cursor
to 1; the abandonment effect then resets it to 0 — the cursor decreases
between successive states, so it is not monotone over the operation set the
claim lists (which includes the abandonment/reset effect). -/
theorem cursor_decreases_on_abandon_cex :
    (runOps plan2 [Op.load LoadOutcome.found, Op.start,
      Op.update (ProgressUpdate.sets [oneSet]),
      Op.complete envAllOk]).currentExerciseIndex = 1 ∧
    (runOps plan2 [Op.load LoadOutcome.found, Op.start,
      Op.update (ProgressUpdate.sets [oneSet]), Op.complete envAllOk,
      Op.abandon]).currentExerciseIndex = 0 := by decide

/-- C3 (amended): for every valid plan (non-empty exercise list) and every
operation sequence, the cursor stays in `[0, exerciseCount]` and reaches the
count only with the day completed; every operation except the
abandonment/reset effect leaves the cursor equal or larger, and the
abandonment effect either resets the cursor to 0 (discarding a started,
non-completed session) or changes nothing but the context flag. -/
theorem cursor_invariant (p : PlanDay) (hp : flattenPlan p ≠ []) (ops : List Op) :
    (runOps p ops).currentExerciseIndex ≤ planExerciseCount p ∧
    ((runOps p ops).currentExerciseIndex = planExerciseCount p →
      (runOps p ops).isWorkoutCompleted = true) ∧
    (∀ (s : SessionState) (op : Op), op ≠ Op.abandon →
      s.currentExerciseIndex ≤ (step p s op).currentExerciseIndex) ∧
    (∀ s : SessionState, (abandonWorkout s).currentExerciseIndex = 0 ∨
      abandonWorkout s = { s with workoutInProgress := false }) := by
  obtain ⟨_, hle, hcm⟩ := cursorInv_run p hp ops
  refine ⟨hle, hcm, fun s op hop => ?_, fun s => ?_⟩
  · cases op with
    | load o =>
      cases o with
      | fetchError => exact le_refl _
      | found =>
        show _ ≤ (loadWorkout p LoadOutcome.found s).currentExerciseIndex
        unfold loadWorkout
        by_cases hc : p.isComplete
        · rw [if_pos hc]
        · rw [if_neg hc]
    | start => exact le_refl _
    | togglePause => exact le_refl _
    | update u => exact le_refl _
    | startRest =>
      show _ ≤ (startRestTimer s).currentExerciseIndex
      unfold startRestTimer
      dsimp only
      split <;> exact le_refl _
    | toggleRestPause => exact le_refl _
    | resetRest => exact le_refl _
    | cancelRest => exact le_refl _
    | restTick =>
      show _ ≤ (restTick s).currentExerciseIndex
      unfold restTick
      repeat' split
      all_goals exact le_refl _
    | tick =>
      show _ ≤ (timerTick s).currentExerciseIndex
      unfold timerTick
      split <;> exact le_refl _
    | abandon => exact absurd rfl hop
    | complete env =>
      show _ ≤ (completeExercise s env).state.currentExerciseIndex
      rcases complete_cases s env with ⟨h1, h2, h3⟩ | ⟨h1, h2, h3, h4⟩ | ⟨h1, h2, h3, h4⟩
      · omega
      · omega
      · omega
    | skip env =>
      show _ ≤ (skipCurrentExercise s env).state.currentExerciseIndex
      rcases skip_cases s env with ⟨h1, h2, h3⟩ | ⟨h1, h2, h3, h4⟩ | ⟨h1, h2, h3, h4⟩
      · omega
      · omega
      · omega
  · unfold abandonWorkout
    dsimp only
    split
    · exact Or.inl rfl
    · exact Or.inr rfl

theorem cursor_invariant_witness :
    (runOps plan2 [Op.load LoadOutcome.found, Op.start,
      Op.update (ProgressUpdate.sets [oneSet]),
      Op.complete envAllOk]).currentExerciseIndex ≤ planExerciseCount plan2 ∧
    sLogged.currentExerciseIndex ≤
      (step plan2 sLogged (Op.complete envAllOk)).currentExerciseIndex := by
  have h := cursor_invariant plan2 (by decide)
    [Op.load LoadOutcome.found, Op.start,
      Op.update (ProgressUpdate.sets [oneSet]), Op.complete envAllOk]
  exact ⟨h.1, h.2.2.1 sLogged (Op.complete envAllOk) (by decide)⟩

/-- C1 counterexample: in `sReady` the current exercise's logged set list is
empty, yet when `getCurrentUser()` yields no user the call reports the
generic completion error, not the validation error — the auth lookup
precedes the empty-set check. -/
theorem completeExercise_emptySets_authFirst_cex :
    currentProgress sReady = some pA0 ∧ pA0.sets = [] ∧
    (completeExercise sReady envNoAuth).alert = AlertMsg.completeFailed ∧
    AlertMsg.completeFailed ≠ AlertMsg.noSetsLogged := by decide

/-- C1 (amended): provided the current-user lookup succeeds,
`completeExercise()` on a current exercise whose logged set list is empty
shows the no-sets validation alert, issues no remote call, and returns the
session state completely unchanged (cursor included). -/
theorem completeExercise_emptySets_validation (s : SessionState) (env : Env)
    (cur : BlockExercise) (prog : ExerciseProgress)
    (hauth : env.authOk = true) (hcur : currentExercise s = some cur)
    (hprog : currentProgress s = some prog) (hsets : prog.sets = []) :
    completeExercise s env = ⟨s, [], AlertMsg.noSetsLogged⟩ := by
  simp [completeExercise, hcur, hprog, hauth, hsets]

theorem completeExercise_emptySets_validation_witness :
    completeExercise sReady envAllOk = ⟨sReady, [], AlertMsg.noSetsLogged⟩ :=
  completeExercise_emptySets_validation sReady envAllOk exA pA0 rfl (by decide)
    (by decide) rfl

/-- C5 counterexample: with the rest timer mid-countdown on the first
exercise of `plan2`, a successful `completeExercise()` advances the cursor
to the second exercise while the rest timer stays active with its countdown
intact — advancing does not cancel it. -/
theorem restTimer_survives_advance_cex :
    sResting.isRestTimerActive = true ∧ sResting.currentExerciseIndex = 0 ∧
    (completeExercise sResting envAllOk).state.currentExerciseIndex = 1 ∧
    (completeExercise sResting envAllOk).state.isRestTimerActive = true ∧
    (completeExercise sResting envAllOk).state.restTimerCountdown = 30 := by
  decide

/-- C5 (amended): a single rest-timer record exists, so at most one rest
countdown can be active; but neither `completeExercise()` nor
`skipExercise()` touches it — all three rest-timer fields survive any
outcome of either operation, so a countdown started for one exercise keeps
running while a different exercise is current; only `cancelRestTimer` (or
expiry) stops it. -/
theorem restTimer_preserved_by_advance (s : SessionState) (env : Env) :
    ((completeExercise s env).state.isRestTimerActive = s.isRestTimerActive ∧
      (completeExercise s env).state.isRestTimerPaused = s.isRestTimerPaused ∧
      (completeExercise s env).state.restTimerCountdown = s.restTimerCountdown) ∧
    ((skipCurrentExercise s env).state.isRestTimerActive = s.isRestTimerActive ∧
      (skipCurrentExercise s env).state.isRestTimerPaused = s.isRestTimerPaused ∧
      (skipCurrentExercise s env).state.restTimerCountdown = s.restTimerCountdown) ∧
    ((cancelRestTimer s).isRestTimerActive = false ∧
      (cancelRestTimer s).restTimerCountdown = 0) := by
  refine ⟨?_, ?_, ⟨rfl, rfl⟩⟩
  · unfold completeExercise
    repeat' split
    all_goals exact ⟨rfl, rfl, rfl⟩
  · unfold skipCurrentExercise
    repeat' split
    all_goals exact ⟨rfl, rfl, rfl⟩

theorem restTimer_countdown_exact_witness :
    (restTick^[3] sResting).restTimerCountdown = (30 : Int) - 3 ∧
    (restTick^[30] sResting).restTimerCountdown = 0 ∧
    (restTick^[30] sResting).isRestTimerActive = false ∧
    (restTick^[30] sResting).showRestCompleteModal = true := by
  have h := restTimer_countdown_exact 30 (by decide) sResting rfl rfl rfl
  exact ⟨(h.1 3 (by decide)).1, h.2.2.1, h.2.2.2.1, h.2.2.2.2⟩

end WorkoutSession
